/-
Verification development for the srf05modweb repository.

Shallow embedding of:
  * src/srf05mod/src/srf05.c  — kernel module: the measure() busy-wait state
    machine and the three sysfs show functions.
  * src/srf05web/src/srf05web.c — web service: sysfs readers, the in-memory
    history ring buffer, CSV persistence and JSON rendering.

External effects (GPIO reads, file opens, wall-clock time, localtime) are
modelled as explicit parameters; machine integers are Nat/Int with explicit
wraparound where it matters.
-/
import Mathlib

/-! # Rangefinder driver model (src/srf05mod/src/srf05.c) -/

/-- Timeout bound of the echo-start busy poll (srf05.c line 27). -/
def MEASURE_START_TIMEOUT : Nat := 25000

/-- Timeout bound of the echo-width busy poll (srf05.c line 30). -/
def MEASURE_XMIT_TIMEOUT : Nat := 100000

/-- The kernel module's mutable measurement state: the globals `distance`
(unsigned long, srf05.c line 45) and `status` (int, 0 = OPERATIONAL,
1 = ERROR, srf05.c line 48). -/
structure SensorState where
  distance : Nat
  status : Nat
deriving DecidableEq, Repr

/-- One C busy-wait loop `while (gpio_get_value(..) == stay-level && t < timeout) t++;`
(srf05.c lines 123 and 132).  `g u` is the GPIO level observed by the loop's
u-th poll; the loop keeps spinning while the observed level equals `stay`.
`fuel` is a structural-termination device only: the loop itself stops at
`timeout`, and `fuel` is always instantiated large enough (see `busyWait`)
never to cut the loop short. -/
def busyWaitGo (g : Nat → Bool) (stay : Bool) (timeout : Nat) : Nat → Nat → Nat
  | 0, t => t
  | fuel + 1, t => if g t = stay ∧ t < timeout then busyWaitGo g stay timeout fuel (t + 1) else t

/-- Run a busy-wait loop from `t = 0` with sufficient fuel. -/
def busyWait (g : Nat → Bool) (stay : Bool) (timeout : Nat) : Nat :=
  busyWaitGo g stay timeout (timeout + 1) 0

/-- The `measure()` function (srf05.c lines 111-141).  `g1 u` is the GPIO
level seen by the u-th poll of the echo-start loop, `g2 u` the level seen by
the u-th poll of the echo-width loop; `s` is the pre-call sensor state. -/
def srf05_measure (g1 g2 : Nat → Bool) (s : SensorState) : SensorState :=
  let t := busyWait g1 false MEASURE_START_TIMEOUT
  if MEASURE_START_TIMEOUT ≤ t then { s with status := 1 }
  else
    let t2 := busyWait g2 true MEASURE_XMIT_TIMEOUT
    if MEASURE_XMIT_TIMEOUT ≤ t2 then { s with status := 1 }
    else { distance := t2, status := 0 }

lemma busyWaitGo_of_all (g : Nat → Bool) (stay : Bool) (timeout : Nat)
    (hall : ∀ u, u < timeout → g u = stay) :
    ∀ fuel t, timeout ≤ fuel + t → t ≤ timeout → busyWaitGo g stay timeout fuel t = timeout := by
  intro fuel
  induction fuel with
  | zero =>
    intro t h1 h2
    simp only [busyWaitGo]
    omega
  | succ fuel ih =>
    intro t h1 h2
    by_cases ht : t < timeout
    · have hg : g t = stay := hall t ht
      simp only [busyWaitGo, hg, ht, and_self, if_true]
      exact ih (t + 1) (by omega) (by omega)
    · have hcond : ¬ (g t = stay ∧ t < timeout) := fun hc => absurd hc.2 ht
      simp only [busyWaitGo, if_neg hcond]
      omega

lemma busyWaitGo_of_stop (g : Nat → Bool) (stay : Bool) (timeout t0 : Nat)
    (h0 : ¬ g t0 = stay) (hmin : ∀ u, u < t0 → g u = stay) :
    ∀ fuel t, t ≤ t0 → t0 < timeout → t0 < fuel + t → busyWaitGo g stay timeout fuel t = t0 := by
  intro fuel
  induction fuel with
  | zero =>
    intro t h1 h2 h3
    omega
  | succ fuel ih =>
    intro t h1 h2 h3
    by_cases ht : t = t0
    · subst ht
      simp only [busyWaitGo, h0, false_and, if_false]
    · have hlt : t < t0 := by omega
      have hg : g t = stay := hmin t hlt
      simp only [busyWaitGo, hg, true_and, if_pos (by omega : t < timeout)]
      exact ih (t + 1) (by omega) h2 (by omega)

lemma busyWait_of_all (g : Nat → Bool) (stay : Bool) (timeout : Nat)
    (hall : ∀ u, u < timeout → g u = stay) :
    busyWait g stay timeout = timeout :=
  busyWaitGo_of_all g stay timeout hall (timeout + 1) 0 (by omega) (by omega)

lemma busyWait_lt_of_escape (g : Nat → Bool) (stay : Bool) (timeout : Nat)
    (hex : ∃ u, u < timeout ∧ ¬ g u = stay) :
    busyWait g stay timeout < timeout := by
  obtain ⟨u, hu, hgu⟩ := hex
  have hP : ∃ v, ¬ g v = stay := ⟨u, hgu⟩
  set t0 := Nat.find hP with ht0
  have h0 : ¬ g t0 = stay := Nat.find_spec hP
  have hmin : ∀ v, v < t0 → g v = stay := by
    intro v hv
    have := Nat.find_min hP hv
    simpa using this
  have hle : t0 ≤ u := Nat.find_min' hP hgu
  have hlt : t0 < timeout := by omega
  have := busyWaitGo_of_stop g stay timeout t0 h0 hmin (timeout + 1) 0 (by omega) hlt (by omega)
  unfold busyWait
  omega

/-- C1: In `measure()`, if the echo-start busy poll never sees the line high
within `MEASURE_START_TIMEOUT` polls, or the echo-width busy poll never sees
the line low within `MEASURE_XMIT_TIMEOUT` polls, then `status` is set to 1
(ERROR) and `distance` keeps its pre-call value; otherwise `status` is set to
0 (OPERATIONAL) and `distance` is set to the tick count of the echo-width
wait. -/
theorem measure_timeout_spec (g1 g2 : Nat → Bool) (s : SensorState) :
    srf05_measure g1 g2 s =
      if ∀ u, u < MEASURE_START_TIMEOUT → g1 u = false then
        { distance := s.distance, status := 1 }
      else if ∀ u, u < MEASURE_XMIT_TIMEOUT → g2 u = true then
        { distance := s.distance, status := 1 }
      else
        { distance := busyWait g2 true MEASURE_XMIT_TIMEOUT, status := 0 } := by
  by_cases hA : ∀ u, u < MEASURE_START_TIMEOUT → g1 u = false
  · rw [if_pos hA]
    have h1 : busyWait g1 false MEASURE_START_TIMEOUT = MEASURE_START_TIMEOUT :=
      busyWait_of_all g1 false MEASURE_START_TIMEOUT hA
    simp only [srf05_measure, h1, le_refl, if_true]
  · rw [if_neg hA]
    push_neg at hA
    obtain ⟨u, hu, hgu⟩ := hA
    have h1 : busyWait g1 false MEASURE_START_TIMEOUT < MEASURE_START_TIMEOUT :=
      busyWait_lt_of_escape g1 false MEASURE_START_TIMEOUT ⟨u, hu, by simpa using hgu⟩
    by_cases hB : ∀ u, u < MEASURE_XMIT_TIMEOUT → g2 u = true
    · rw [if_pos hB]
      have h2 : busyWait g2 true MEASURE_XMIT_TIMEOUT = MEASURE_XMIT_TIMEOUT :=
        busyWait_of_all g2 true MEASURE_XMIT_TIMEOUT hB
      simp only [srf05_measure, h2, le_refl, if_true, if_neg (by omega : ¬ MEASURE_START_TIMEOUT ≤ busyWait g1 false MEASURE_START_TIMEOUT)]
    · rw [if_neg hB]
      push_neg at hB
      obtain ⟨v, hv, hgv⟩ := hB
      have h2 : busyWait g2 true MEASURE_XMIT_TIMEOUT < MEASURE_XMIT_TIMEOUT :=
        busyWait_lt_of_escape g2 true MEASURE_XMIT_TIMEOUT ⟨v, hv, by simpa using hgv⟩
      simp only [srf05_measure,
        if_neg (by omega : ¬ MEASURE_START_TIMEOUT ≤ busyWait g1 false MEASURE_START_TIMEOUT),
        if_neg (by omega : ¬ MEASURE_XMIT_TIMEOUT ≤ busyWait g2 true MEASURE_XMIT_TIMEOUT)]

/-! # Decimal text: sprintf rendering and atol parsing

The kernel module publishes its values as decimal text via `sprintf` and the
web service parses them back with `atol`; both libc routines are modelled
here for the inputs that actually occur (non-negative decimal, no leading
whitespace). -/

/-- ASCII digit character for a single decimal digit. -/
def digitChar (d : Nat) : Char := Char.ofNat (48 + d)

/-- Decimal digits of `n`, most significant first, prepended to `acc`
(the core of sprintf's integer conversion).  `fuel` only forces structural
termination; `fuel ≥ n` always suffices. -/
def natToDecAux : Nat → Nat → List Char → List Char
  | 0, _, acc => acc
  | fuel + 1, n, acc =>
    if n = 0 then acc else natToDecAux fuel (n / 10) (digitChar (n % 10) :: acc)

/-- Decimal rendering of a natural number, as sprintf `%lu` produces it. -/
def natToDecimal (n : Nat) : String :=
  if n = 0 then "0" else String.mk (natToDecAux n n [])

/-- Decimal rendering of a long, as sprintf `%ld` produces it. -/
def intToDecimal (i : Int) : String :=
  if i < 0 then "-" ++ natToDecimal i.natAbs else natToDecimal i.toNat

/-- Value of the leading run of decimal digits of a character list, given an
accumulator (the digit-consuming loop inside `atol`). -/
def digitsVal : List Char → Nat → Nat
  | [], v => v
  | c :: cs, v => if c.isDigit then digitsVal cs (10 * v + (c.toNat - 48)) else v

/-- The libc `atol` as used on the sysfs lines read by srf05web.c: an
optional leading minus sign followed by a run of decimal digits; parsing
stops at the first non-digit (such as the trailing newline). -/
def atol (s : String) : Int :=
  if s.data.head? = some '-' then -(digitsVal s.data.tail 0 : Int)
  else (digitsVal s.data 0 : Int)

lemma digitChar_isDigit {d : Nat} (hd : d < 10) : (digitChar d).isDigit = true := by
  interval_cases d <;> decide

lemma digitChar_toNat {d : Nat} (hd : d < 10) : (digitChar d).toNat - 48 = d := by
  interval_cases d <;> decide

lemma digitChar_ne_minus {d : Nat} (hd : d < 10) : digitChar d ≠ '-' := by
  interval_cases d <;> decide

lemma natToDecAux_append (fuel n : Nat) (acc tail : List Char) :
    natToDecAux fuel n (acc ++ tail) = natToDecAux fuel n acc ++ tail := by
  induction fuel generalizing n acc with
  | zero => simp [natToDecAux]
  | succ fuel ih =>
    by_cases hn : n = 0
    · simp [natToDecAux, hn]
    · simp only [natToDecAux, hn, if_false]
      have := ih (n / 10) (digitChar (n % 10) :: acc)
      simpa using this

lemma natToDecAux_mem (fuel n : Nat) (acc : List Char) (c : Char)
    (hc : c ∈ natToDecAux fuel n acc) : c ∈ acc ∨ c.isDigit = true := by
  induction fuel generalizing n acc with
  | zero => exact Or.inl (by simpa [natToDecAux] using hc)
  | succ fuel ih =>
    by_cases hn : n = 0
    · exact Or.inl (by simpa [natToDecAux, hn] using hc)
    · simp only [natToDecAux, hn, if_false] at hc
      rcases ih (n / 10) (digitChar (n % 10) :: acc) hc with h | h
      · rcases List.mem_cons.mp h with h | h
        · subst h
          exact Or.inr (digitChar_isDigit (Nat.mod_lt _ (by omega)))
        · exact Or.inl h
      · exact Or.inr h

lemma natToDecAux_ne_nil_of_acc (fuel n : Nat) (acc : List Char) (hacc : acc ≠ []) :
    natToDecAux fuel n acc ≠ [] := by
  induction fuel generalizing n acc with
  | zero => simpa [natToDecAux]
  | succ fuel ih =>
    by_cases hn : n = 0
    · simpa [natToDecAux, hn]
    · simp only [natToDecAux, hn, if_false]
      exact ih (n / 10) _ (by simp)

lemma natToDecAux_ne_nil (fuel n : Nat) (acc : List Char) (hn : n ≠ 0) (hf : fuel ≠ 0) :
    natToDecAux fuel n acc ≠ [] := by
  obtain ⟨fuel', rfl⟩ : ∃ f, fuel = f + 1 := ⟨fuel - 1, by omega⟩
  simp only [natToDecAux, hn, if_false]
  exact natToDecAux_ne_nil_of_acc fuel' (n / 10) _ (by simp)

lemma digitsVal_natToDecAux (fuel : Nat) :
    ∀ n acc v, n ≤ fuel →
      ∃ k, digitsVal (natToDecAux fuel n acc) v = digitsVal acc (v * 10 ^ k + n) := by
  induction fuel with
  | zero =>
    intro n acc v hn
    refine ⟨0, ?_⟩
    have : n = 0 := by omega
    simp [natToDecAux, this]
  | succ fuel ih =>
    intro n acc v hn
    by_cases h0 : n = 0
    · refine ⟨0, ?_⟩
      simp [natToDecAux, h0]
    · have hdiv : n / 10 ≤ fuel := by
        have := Nat.div_lt_self (by omega : 0 < n) (by omega : 1 < 10)
        omega
      obtain ⟨k, hk⟩ := ih (n / 10) (digitChar (n % 10) :: acc) v hdiv
      refine ⟨k + 1, ?_⟩
      simp only [natToDecAux, h0, if_false]
      rw [hk]
      have hmod : n % 10 < 10 := Nat.mod_lt _ (by omega)
      simp only [digitsVal, digitChar_isDigit hmod, if_true, digitChar_toNat hmod]
      congr 1
      have h10 : 10 * (n / 10) + n % 10 = n := Nat.div_add_mod n 10
      have : 10 * (v * 10 ^ k + n / 10) + n % 10 = v * (10 ^ k * 10) + (10 * (n / 10) + n % 10) := by
        ring
      rw [this, h10, pow_succ]

/-- Parsing the sprintf rendering of a natural number followed by a newline
recovers the number: `atol` inverts `%lu` on every sysfs line that the
kernel module writes. -/
lemma atol_natToDecimal_newline (n : Nat) : atol (natToDecimal n ++ "\n") = (n : Int) := by
  by_cases h0 : n = 0
  · subst h0
    decide
  · have hne : natToDecAux n n [] ≠ [] := natToDecAux_ne_nil n n [] h0 (by omega)
    obtain ⟨c, cs, hcons⟩ : ∃ c cs, natToDecAux n n [] = c :: cs := by
      rcases hl : natToDecAux n n [] with _ | ⟨c, cs⟩
      · exact absurd hl hne
      · exact ⟨c, cs, rfl⟩
    have hcdig : c.isDigit = true := by
      rcases natToDecAux_mem n n [] c (by rw [hcons]; exact List.mem_cons_self c cs) with h | h
      · simp at h
      · exact h
    have hcne : c ≠ '-' := by
      intro hc
      rw [hc] at hcdig
      simp at hcdig
    have hdata : (natToDecimal n ++ "\n").data = natToDecAux n n ['\n'] := by
      have h1 : (natToDecimal n ++ "\n").data = (natToDecimal n).data ++ ['\n'] := by
        simp [String.data_append]
      have h2 : (natToDecimal n).data = natToDecAux n n [] := by
        simp [natToDecimal, h0]
      have h3 : natToDecAux n n ['\n'] = natToDecAux n n [] ++ ['\n'] := by
        have := natToDecAux_append n n [] ['\n']
        simpa using this
      rw [h1, h2, h3]
    have hdata2 : (natToDecimal n ++ "\n").data = c :: cs ++ ['\n'] := by
      rw [hdata]
      have h3 : natToDecAux n n ['\n'] = natToDecAux n n [] ++ ['\n'] := by
        have := natToDecAux_append n n [] ['\n']
        simpa using this
      rw [h3, hcons]
    obtain ⟨k, hk⟩ := digitsVal_natToDecAux n n ['\n'] 0 (le_refl n)
    have hval : digitsVal (natToDecAux n n ['\n']) 0 = n := by
      rw [hk]
      simp [digitsVal]
    have hlist : c :: cs ++ ['\n'] = natToDecAux n n ['\n'] := by
      rw [← hcons]
      have h3 : natToDecAux n n ['\n'] = natToDecAux n n [] ++ ['\n'] := by
        have := natToDecAux_append n n [] ['\n']
        simpa using this
      rw [h3]
    unfold atol
    rw [hdata2]
    have hhead : (c :: cs ++ ['\n']).head? ≠ some '-' := by
      simp [hcne]
    rw [if_neg hhead, hlist, hval]

/-! # Publication bridge: kernel sysfs files and their web-side readers -/

/-- The kernel module's published state together with the configured
centimeter divisor `srf05_cmdiv` (srf05.c line 39, default 450). -/
structure KernelState where
  distance : Nat
  status : Nat
  cmdiv : Nat
deriving DecidableEq, Repr

/-- Content of the sysfs file `distance_raw` (srf05.c lines 65-68):
`sprintf(buf, "%lu\n", distance)`. -/
def sysfs_distance_raw_show (k : KernelState) : String :=
  natToDecimal k.distance ++ "\n"

/-- Content of the sysfs file `distance_cm` (srf05.c lines 75-78):
`sprintf(buf, "%lu\n", distance / srf05_cmdiv)`. -/
def sysfs_distance_cm_show (k : KernelState) : String :=
  natToDecimal (k.distance / k.cmdiv) ++ "\n"

/-- Content of the sysfs file `status` (srf05.c lines 85-88):
`sprintf(buf, "%s\n", status == 1 ? "ERROR" : "OPERATIONAL")`. -/
def sysfs_status_show (k : KernelState) : String :=
  (if k.status = 1 then "ERROR" else "OPERATIONAL") ++ "\n"

/-- The state publication bridge as seen by one call of the web service: the
kernel state behind the three sysfs files plus, for each file, whether its
`fopen` succeeds. -/
structure Bridge where
  kernel : KernelState
  rawOk : Bool
  cmOk : Bool
  statusOk : Bool
deriving DecidableEq, Repr

/-- The function `srf05_read_distance` (srf05web.c lines 153-173): build the
file name from the unit suffix, return -1 when the file cannot be opened,
otherwise parse the file's line with `atol`. -/
def srf05_read_distance (b : Bridge) (unit : String) : Int :=
  if unit = "cm" then
    (if b.cmOk then atol (sysfs_distance_cm_show b.kernel) else -1)
  else if unit = "raw" then
    (if b.rawOk then atol (sysfs_distance_raw_show b.kernel) else -1)
  else -1

/-- Drop a trailing character: the effect of `status[strlen(status) - 1] = 0`
on the non-empty line that `fgets` returns for the sysfs status file. -/
def stripLastChar (s : String) : String := String.mk s.data.dropLast

/-- The function `srf05_read_status` (srf05web.c lines 182-198): "UNKNOWN"
when the status file cannot be opened, otherwise the file's line with its
trailing newline removed. -/
def srf05_read_status (b : Bridge) : String :=
  if b.statusOk then stripLastChar (sysfs_status_show b.kernel) else "UNKNOWN"

/-- The array index written by `status[strlen(status) - 1] = 0`
(srf05web.c line 193), with the `size_t` subtraction performed modulo
2 ^ 64: for an empty line `strlen` is 0 and the index wraps to 2 ^ 64 - 1. -/
def statusWriteIndex (s : String) : Nat :=
  (s.length + (2 ^ 64 - 1)) % 2 ^ 64

lemma srf05_read_distance_raw_ok (b : Bridge) (h : b.rawOk = true) :
    srf05_read_distance b "raw" = (b.kernel.distance : Int) := by
  unfold srf05_read_distance
  rw [if_neg (by decide : ¬ ("raw" : String) = "cm"),
    if_pos (rfl : ("raw" : String) = "raw"), if_pos h]
  unfold sysfs_distance_raw_show
  exact atol_natToDecimal_newline b.kernel.distance

lemma srf05_read_distance_cm_ok (b : Bridge) (h : b.cmOk = true) :
    srf05_read_distance b "cm" = ((b.kernel.distance / b.kernel.cmdiv : Nat) : Int) := by
  unfold srf05_read_distance
  rw [if_pos (rfl : ("cm" : String) = "cm"), if_pos h]
  unfold sysfs_distance_cm_show
  exact atol_natToDecimal_newline (b.kernel.distance / b.kernel.cmdiv)

/-! # In-memory history ring buffer (srf05web.c) -/

/-- Maximum number of in-memory history items (srf05web.c line 69). -/
def MAX_HISTORY : Nat := 48

/-- One history entry (struct `history_entry`, srf05web.c lines 79-101):
timestamp, distance in cm, raw distance, and the status char
(1 = OPERATIONAL, 0 = ERROR). -/
structure HistoryEntry where
  ts : Int
  dcm : Int
  draw : Int
  stat : Nat
deriving DecidableEq, Repr

/-- The history ring buffer (struct `history_table`, srf05web.c
lines 106-127).  The C entry array is modelled as a total map from slot
index to entry; `size` is the capacity, `curr` the (int, possibly -1) index
of the most recent entry, `count` the number of live entries. -/
structure HistoryTable where
  entries : Nat → HistoryEntry
  size : Nat
  curr : Int
  count : Nat

/-- The global `history` initializer (srf05web.c lines 132-136), with the
entry array zero-initialized as for a C static object.  The capacity is a
parameter; the program instantiates it with `MAX_HISTORY`. -/
def initHistory (n : Nat) : HistoryTable :=
  { entries := fun _ => ⟨0, 0, 0, 0⟩, size := n, curr := -1, count := 0 }

/-- Core of `add_history` (srf05web.c lines 204-232): advance the write
position with wraparound, saturate the count at the capacity, store the
entry, and leave `curr` at the slot just written. -/
def addEntry (e : HistoryEntry) (h : HistoryTable) : HistoryTable :=
  let pos0 : Int := h.curr + 1
  let pos : Int := if (h.size : Int) ≤ pos0 then 0 else pos0
  let curr1 : Int := if (h.size : Int) ≤ pos0 then -1 else h.curr
  { entries := fun i => if i = pos.toNat then e else h.entries i
    size := h.size
    curr := curr1 + 1
    count := if h.count < h.size then h.count + 1 else h.count }

/-- The entry that `add_history` builds from the bridge and the current
wall-clock time `now` (srf05web.c lines 219-229): `time(&..ts)`, the two
`srf05_read_distance` calls, and the `strcmp` against "OPERATIONAL". -/
def mkEntry (b : Bridge) (now : Int) : HistoryEntry :=
  { ts := now
    dcm := srf05_read_distance b "cm"
    draw := srf05_read_distance b "raw"
    stat := if srf05_read_status b = "OPERATIONAL" then 1 else 0 }

/-- The function `add_history` (srf05web.c lines 204-232). -/
def add_history (b : Bridge) (now : Int) (h : HistoryTable) : HistoryTable :=
  addEntry (mkEntry b now) h

/-- The newest-to-oldest walk of the history handler loop (srf05web.c
lines 309-333): emit `entries[pos]` for `count` iterations, decrementing
`pos` with wraparound to `size - 1`. -/
def snapshotAux (h : HistoryTable) : Nat → Int → List HistoryEntry
  | 0, _ => []
  | n + 1, pos =>
    h.entries pos.toNat ::
      snapshotAux h n (if pos - 1 < 0 then (h.size : Int) - 1 else pos - 1)

/-- The sequence of entries the history handler renders: the walk started
at `history.curr` for `history.count` steps. -/
def snapshot_newest_first (h : HistoryTable) : List HistoryEntry :=
  snapshotAux h h.count h.curr

/-- Fold a list of entries into the history, oldest first, starting from
the freshly initialized table of capacity `n`. -/
def appendAll (n : Nat) (rs : List HistoryEntry) : HistoryTable :=
  rs.foldl (fun h e => addEntry e h) (initHistory n)

lemma addEntry_entries_at_curr (e : HistoryEntry) (h : HistoryTable) :
    (addEntry e h).entries (addEntry e h).curr.toNat = e := by
  unfold addEntry
  by_cases hw : (h.size : Int) ≤ h.curr + 1
  · simp [hw]
  · simp [hw]

lemma addEntry_size (e : HistoryEntry) (h : HistoryTable) :
    (addEntry e h).size = h.size := rfl

lemma addEntry_count (e : HistoryEntry) (h : HistoryTable) :
    (addEntry e h).count = if h.count < h.size then h.count + 1 else h.count := rfl

lemma snapshotAux_take (h : HistoryTable) :
    ∀ n m (pos : Int), n ≤ m → snapshotAux h n pos = (snapshotAux h m pos).take n := by
  intro n
  induction n with
  | zero => intro m pos _; simp [snapshotAux]
  | succ n ih =>
    intro m pos hnm
    obtain ⟨m', rfl⟩ : ∃ m', m = m' + 1 := ⟨m - 1, by omega⟩
    simp only [snapshotAux, List.take_succ_cons]
    exact congrArg _ (ih m' _ (by omega))

lemma snapshotAux_congr_avoid (h1 h2 : HistoryTable) (q : Int)
    (hsize : h1.size = h2.size)
    (hq0 : 0 ≤ q) (hqN : q < (h1.size : Int))
    (hent : ∀ i, i ≠ q.toNat → h1.entries i = h2.entries i) :
    ∀ (n : Nat) (p : Int), 0 ≤ p → p < (h1.size : Int) →
      (n : Int) ≤ (p - q) % (h1.size : Int) →
      snapshotAux h1 n p = snapshotAux h2 n p := by
  intro n
  induction n with
  | zero => intro p _ _ _; rfl
  | succ n ih =>
    intro p hp0 hpN hgap
    have hNpos : (0 : Int) < (h1.size : Int) := by omega
    have hNne : (h1.size : Int) ≠ 0 := by omega
    have hg0 : 0 ≤ (p - q) % (h1.size : Int) := Int.emod_nonneg _ hNne
    have hgN : (p - q) % (h1.size : Int) < (h1.size : Int) := Int.emod_lt_of_pos _ hNpos
    have hg1 : 1 ≤ (p - q) % (h1.size : Int) := by
      have : ((n : Int) + 1) ≤ (p - q) % (h1.size : Int) := by push_cast at hgap ⊢; omega
      omega
    have hpq : p ≠ q := by
      intro hpq
      rw [hpq, sub_self, Int.zero_emod] at hg1
      omega
    have hpqN : p.toNat ≠ q.toNat := by omega
    have hhead : h1.entries p.toNat = h2.entries p.toNat := hent _ hpqN
    simp only [snapshotAux, ← hsize, hhead]
    refine congrArg _ ?_
    set p' : Int := if p - 1 < 0 then (h1.size : Int) - 1 else p - 1 with hp'
    have hp'0 : 0 ≤ p' := by
      rw [hp']
      split <;> omega
    have hp'N : p' < (h1.size : Int) := by
      rw [hp']
      split <;> omega
    have hmod : (p' - q) % (h1.size : Int) = (p - q) % (h1.size : Int) - 1 := by
      have hstep : (p' - q) % (h1.size : Int) = ((p - q) - 1) % (h1.size : Int) := by
        by_cases hz : p - 1 < 0
        · have hpz : p = 0 := by omega
          have : p' - q = ((p - q) - 1) + 1 * (h1.size : Int) := by
            rw [hp', if_pos hz]
            omega
          rw [this, Int.add_mul_emod_self]
        · have : p' - q = (p - q) - 1 := by
            rw [hp', if_neg hz]
            ring
          rw [this]
      rw [hstep, Int.sub_emod]
      have h1N : (1 : Int) % (h1.size : Int) = 1 := by
        have hN2 : (2 : Int) ≤ (h1.size : Int) := by omega
        exact Int.emod_eq_of_lt (by omega) (by omega)
      rw [h1N]
      exact Int.emod_eq_of_lt (by omega) (by omega)
    have hgap' : (n : Int) ≤ (p' - q) % (h1.size : Int) := by
      rw [hmod]
      have : ((n : Int) + 1) ≤ (p - q) % (h1.size : Int) := by push_cast at hgap ⊢; omega
      omega
    exact ih p' hp'0 hp'N hgap'

lemma snapshot_addEntry (h : HistoryTable) (e : HistoryEntry)
    (hN : 0 < h.size)
    (hc1 : -1 ≤ h.curr) (hc2 : h.curr < (h.size : Int))
    (hcnt : h.count ≤ h.size)
    (hrel : ((h.count : Int) = h.curr + 1) ∨ (h.count = h.size ∧ 0 ≤ h.curr)) :
    snapshot_newest_first (addEntry e h) =
      e :: (snapshot_newest_first h).take ((addEntry e h).count - 1) := by
  by_cases hk0 : h.count = 0
  · have hc : h.curr = -1 := by
      rcases hrel with hl | hr
      · omega
      · omega
    have hw : ¬ ((h.size : Int) ≤ h.curr + 1) := by omega
    have hcurr' : (addEntry e h).curr = 0 := by
      simp only [addEntry, if_neg hw]
      omega
    have hcnt' : (addEntry e h).count = 1 := by
      simp only [addEntry, if_pos (by omega : h.count < h.size)]
      omega
    have hent0 : (addEntry e h).entries ((0 : Int)).toNat = e := by
      have := addEntry_entries_at_curr e h
      rwa [hcurr'] at this
    unfold snapshot_newest_first
    rw [hcurr', hcnt']
    simp only [snapshotAux, hent0]
    simp
  · -- at least one live entry before the append
    have hcpos : 0 ≤ h.curr := by
      rcases hrel with hl | hr
      · omega
      · exact hr.2
    set k' : Nat := (addEntry e h).count with hk'
    have hk'val : k' = if h.count < h.size then h.count + 1 else h.count := rfl
    have hk'le : k' ≤ h.size := by rw [hk'val]; split <;> omega
    have hk'pos : 1 ≤ k' := by rw [hk'val]; split <;> omega
    obtain ⟨m, hm⟩ : ∃ m, k' = m + 1 := ⟨k' - 1, by omega⟩
    have hmle : m ≤ h.size - 1 := by omega
    have hmlek : m ≤ h.count := by
      rw [hk'val] at hm
      by_cases hlt : h.count < h.size
      · rw [if_pos hlt] at hm; omega
      · rw [if_neg hlt] at hm; omega
    -- the slot written by the append, and the walk restart position
    by_cases hw : (h.size : Int) ≤ h.curr + 1
    · -- wraparound append: curr = size - 1, new slot 0
      have hceq : h.curr = (h.size : Int) - 1 := by omega
      have hcurr' : (addEntry e h).curr = 0 := by
        simp only [addEntry, if_pos hw]
        omega
      have hent' : ∀ i, i ≠ ((0 : Int)).toNat → (addEntry e h).entries i = h.entries i := by
        intro i hi
        have hpos : (if (h.size : Int) ≤ h.curr + 1 then 0 else h.curr + 1) = (0 : Int) :=
          if_pos hw
        simp only [addEntry]
        rw [hpos]
        exact if_neg hi
      have hentc : (addEntry e h).entries ((0 : Int)).toNat = e := by
        have := addEntry_entries_at_curr e h
        rwa [hcurr'] at this
      have hwalk : snapshot_newest_first (addEntry e h) =
          e :: snapshotAux (addEntry e h) m ((h.size : Int) - 1) := by
        unfold snapshot_newest_first
        rw [hcurr', ← hk', hm]
        simp only [snapshotAux, hentc, addEntry_size]
        norm_num
      have hgap : (m : Int) ≤ (((h.size : Int) - 1) - 0) % (h.size : Int) := by
        have heq : (((h.size : Int) - 1) - 0) % (h.size : Int) = (h.size : Int) - 1 - 0 :=
          Int.emod_eq_of_lt (by omega) (by omega)
        rw [heq]
        omega
      have hcongr : snapshotAux (addEntry e h) m ((h.size : Int) - 1) =
          snapshotAux h m ((h.size : Int) - 1) := by
        have := snapshotAux_congr_avoid (addEntry e h) h 0 (addEntry_size e h)
          (by omega) (by rw [addEntry_size]; omega) hent' m ((h.size : Int) - 1)
          (by omega) (by rw [addEntry_size]; omega) (by rw [addEntry_size]; exact hgap)
        exact this
      have htake : snapshotAux h m ((h.size : Int) - 1) =
          (snapshotAux h h.count ((h.size : Int) - 1)).take m :=
        snapshotAux_take h m h.count _ hmlek
      rw [hwalk, hcongr, htake]
      unfold snapshot_newest_first
      rw [hceq, hm]
      norm_num
    · -- no wraparound: new slot is curr + 1
      have hcurr' : (addEntry e h).curr = h.curr + 1 := by
        simp only [addEntry, if_neg hw]
      have hent' : ∀ i, i ≠ (h.curr + 1).toNat → (addEntry e h).entries i = h.entries i := by
        intro i hi
        have hpos : (if (h.size : Int) ≤ h.curr + 1 then 0 else h.curr + 1) = h.curr + 1 :=
          if_neg hw
        simp only [addEntry]
        rw [hpos]
        exact if_neg hi
      have hentc : (addEntry e h).entries ((h.curr + 1)).toNat = e := by
        have := addEntry_entries_at_curr e h
        rwa [hcurr'] at this
      have hprev : (if h.curr + 1 - 1 < 0 then ((addEntry e h).size : Int) - 1
          else h.curr + 1 - 1) = h.curr := by
        rw [if_neg (by omega)]
        omega
      have hwalk : snapshot_newest_first (addEntry e h) =
          e :: snapshotAux (addEntry e h) m h.curr := by
        unfold snapshot_newest_first
        rw [hcurr', ← hk', hm]
        simp only [snapshotAux, hentc]
        rw [hprev]
      have hgap : (m : Int) ≤ (h.curr - (h.curr + 1)) % (h.size : Int) := by
        have heq : (h.curr - (h.curr + 1)) = ((h.size : Int) - 1) + (-1) * (h.size : Int) := by
          ring
        rw [heq, Int.add_mul_emod_self]
        rw [Int.emod_eq_of_lt (by omega) (by omega)]
        omega
      have hcongr : snapshotAux (addEntry e h) m h.curr = snapshotAux h m h.curr := by
        exact snapshotAux_congr_avoid (addEntry e h) h (h.curr + 1) (addEntry_size e h)
          (by omega) (by rw [addEntry_size]; omega) hent' m h.curr
          (by omega) (by rw [addEntry_size]; omega) (by rw [addEntry_size]; exact hgap)
      have htake : snapshotAux h m h.curr = (snapshotAux h h.count h.curr).take m :=
        snapshotAux_take h m h.count _ hmlek
      rw [hwalk, hcongr, htake]
      unfold snapshot_newest_first
      rw [hm]
      norm_num

lemma appendAll_append_one (n : Nat) (l : List HistoryEntry) (a : HistoryEntry) :
    appendAll n (l ++ [a]) = addEntry a (appendAll n l) := by
  unfold appendAll
  rw [List.foldl_append]
  rfl

lemma appendAll_facts (n : Nat) (hn : 0 < n) :
    ∀ rs : List HistoryEntry,
      (appendAll n rs).size = n ∧
      -1 ≤ (appendAll n rs).curr ∧
      (appendAll n rs).curr < (n : Int) ∧
      (appendAll n rs).count = min rs.length n ∧
      (((appendAll n rs).count : Int) = (appendAll n rs).curr + 1 ∨
        ((appendAll n rs).count = n ∧ 0 ≤ (appendAll n rs).curr)) ∧
      snapshot_newest_first (appendAll n rs) = rs.reverse.take (min rs.length n) := by
  intro rs
  induction rs using List.reverseRecOn with
  | nil =>
    refine ⟨rfl, by norm_num [appendAll, initHistory], by norm_num [appendAll, initHistory]; omega,
      by simp [appendAll, initHistory], ?_, ?_⟩
    · left
      norm_num [appendAll, initHistory]
    · simp [appendAll, initHistory, snapshot_newest_first, snapshotAux]
  | append_singleton l a ih =>
    obtain ⟨ihsize, ihc1, ihc2, ihcount, ihrel, ihsnap⟩ := ih
    set H := appendAll n l with hH
    rw [appendAll_append_one]
    have hrel' : ((H.count : Int) = H.curr + 1) ∨ (H.count = H.size ∧ 0 ≤ H.curr) := by
      rcases ihrel with hl | hr
      · exact Or.inl hl
      · exact Or.inr ⟨by rw [ihsize]; exact hr.1, hr.2⟩
    have hstep := snapshot_addEntry H a (by rw [ihsize]; exact hn)
      ihc1 (by rw [ihsize]; exact ihc2) (by rw [ihsize]; omega) hrel'
    have hsize' : (addEntry a H).size = n := by rw [addEntry_size]; exact ihsize
    have hcount' : (addEntry a H).count = min (l.length + 1) n := by
      rw [addEntry_count, ihsize, ihcount]
      split <;> omega
    have hcurrw : (addEntry a H).curr =
        (if (H.size : Int) ≤ H.curr + 1 then (-1 : Int) else H.curr) + 1 := rfl
    have hc1' : -1 ≤ (addEntry a H).curr := by
      rw [hcurrw]
      split <;> omega
    have hc2' : (addEntry a H).curr < (n : Int) := by
      rw [hcurrw]
      have hs := ihsize
      split <;> omega
    refine ⟨hsize', hc1', hc2', by rw [hcount']; simp, ?_, ?_⟩
    · by_cases hfull : H.count < n
      · left
        have hlfull : (H.count : Int) = H.curr + 1 := by
          rcases hrel' with hl | hr
          · exact hl
          · rw [ihsize] at hr
            omega
        have hnw : ¬ ((H.size : Int) ≤ H.curr + 1) := by
          rw [ihsize]
          omega
        have hcc : (addEntry a H).curr = H.curr + 1 := by
          rw [hcurrw, if_neg hnw]
        have hcnt2 : (addEntry a H).count = H.count + 1 := by
          rw [addEntry_count, if_pos (by rw [ihsize]; exact hfull)]
        rw [hcc, hcnt2]
        omega
      · right
        constructor
        · rw [addEntry_count, if_neg (by rw [ihsize]; exact hfull)]
          rw [ihcount] at hfull ⊢
          omega
        · rw [hcurrw]
          split <;> omega
    · rw [hstep, ihsnap, hcount', List.take_take]
      have hm1 : min (min (l.length + 1) n - 1) (min l.length n) = min (l.length + 1) n - 1 := by
        omega
      rw [hm1]
      have hrev : (l ++ [a]).reverse = a :: l.reverse := by
        simp
      rw [hrev]
      have hmin1 : min ((l ++ [a]).length) n = (min (l.length + 1) n - 1) + 1 := by
        simp only [List.length_append, List.length_singleton]
        omega
      rw [hmin1, List.take_succ_cons]

/-- C2: With capacity `n` (48 in the program, 3 in the spec scenario), after
more than `n` appends the newest-first snapshot has length exactly `n` and
equals the last `n` appended readings in strict reverse insertion order (the
oldest readings are evicted). -/
theorem history_eviction_spec (n : Nat) (rs : List HistoryEntry)
    (hn : 0 < n) (hlen : n < rs.length) :
    (snapshot_newest_first (appendAll n rs)).length = n ∧
    snapshot_newest_first (appendAll n rs) = rs.reverse.take n := by
  obtain ⟨-, -, -, -, -, hsnap⟩ := appendAll_facts n hn rs
  have hmin : min rs.length n = n := by omega
  rw [hsnap, hmin]
  refine ⟨?_, rfl⟩
  rw [List.length_take, List.length_reverse]
  omega

/-- A concrete reading used in scenario witnesses; only the raw value varies. -/
def sampleEntry (r : Int) : HistoryEntry := ⟨0, 0, r, 1⟩

/-- Witness for C2: the spec scenario with capacity 3 and raw values
10, 20, 30, 40 appended in order yields the snapshot 40, 30, 20. -/
theorem history_eviction_spec_witness :
    0 < 3 ∧
    3 < ([sampleEntry 10, sampleEntry 20, sampleEntry 30, sampleEntry 40] : List HistoryEntry).length ∧
    ((snapshot_newest_first (appendAll 3 [sampleEntry 10, sampleEntry 20, sampleEntry 30, sampleEntry 40])).length = 3 ∧
      snapshot_newest_first (appendAll 3 [sampleEntry 10, sampleEntry 20, sampleEntry 30, sampleEntry 40]) =
        ([sampleEntry 10, sampleEntry 20, sampleEntry 30, sampleEntry 40] : List HistoryEntry).reverse.take 3) ∧
    snapshot_newest_first (appendAll 3 [sampleEntry 10, sampleEntry 20, sampleEntry 30, sampleEntry 40]) =
      [sampleEntry 40, sampleEntry 30, sampleEntry 20] :=
  ⟨by decide, by decide,
    history_eviction_spec 3 [sampleEntry 10, sampleEntry 20, sampleEntry 30, sampleEntry 40]
      (by decide) (by decide),
    by decide⟩

/-- C6: With capacity `n`, after fewer than `n` appends the newest-first
snapshot has length exactly the number of appends and equals the appended
readings in reverse insertion order — no duplicates, no skipped entries. -/
theorem history_partial_spec (n : Nat) (rs : List HistoryEntry)
    (hn : 0 < n) (hlen : rs.length < n) :
    (snapshot_newest_first (appendAll n rs)).length = rs.length ∧
    snapshot_newest_first (appendAll n rs) = rs.reverse := by
  obtain ⟨-, -, -, -, -, hsnap⟩ := appendAll_facts n hn rs
  have hmin : min rs.length n = rs.length := by omega
  rw [hsnap, hmin]
  have htake : rs.reverse.take rs.length = rs.reverse := by
    apply List.take_of_length_le
    rw [List.length_reverse]
  refine ⟨?_, htake⟩
  rw [htake, List.length_reverse]

/-- Witness for C6: capacity 3 with two appends yields the two readings
newest first. -/
theorem history_partial_spec_witness :
    0 < 3 ∧
    ([sampleEntry 7, sampleEntry 8] : List HistoryEntry).length < 3 ∧
    ((snapshot_newest_first (appendAll 3 [sampleEntry 7, sampleEntry 8])).length = 2 ∧
      snapshot_newest_first (appendAll 3 [sampleEntry 7, sampleEntry 8]) =
        ([sampleEntry 7, sampleEntry 8] : List HistoryEntry).reverse) ∧
    snapshot_newest_first (appendAll 3 [sampleEntry 7, sampleEntry 8]) =
      [sampleEntry 8, sampleEntry 7] :=
  ⟨by decide, by decide,
    history_partial_spec 3 [sampleEntry 7, sampleEntry 8] (by decide) (by decide),
    by decide⟩

/-! # Rendering and persistence (srf05web.c) -/

/-- The fields of `struct tm` that srf05web.c uses.  As in C, `tm_year` is
years since 1900 and `tm_mon` is zero-based; the render functions apply the
`+ 1900` / `+ 1` offsets from the source. -/
structure Tm where
  tm_year : Int
  tm_mon : Int
  tm_mday : Int
  tm_hour : Int
  tm_min : Int
  tm_sec : Int
deriving DecidableEq, Repr

/-- Zero-padded decimal rendering of a natural number to width `w`
(printf `%0*u`). -/
def zpadNat (w : Nat) (n : Nat) : String :=
  String.mk (List.replicate (w - (natToDecimal n).length) '0') ++ natToDecimal n

/-- Zero-padded decimal rendering of an int to width `w` (printf `%0*d`). -/
def zpad (w : Nat) (i : Int) : String :=
  if i < 0 then "-" ++ zpadNat (w - 1) i.natAbs else zpadNat w i.toNat

/-- The `%04d-%02d-%02d` date rendering used for both the partition file
name and the date fields (srf05web.c lines 248-251, 260-263, 314-318). -/
def dateString (lt : Tm) : String :=
  zpad 4 (lt.tm_year + 1900) ++ "-" ++ zpad 2 (lt.tm_mon + 1) ++ "-" ++ zpad 2 lt.tm_mday

/-- The `%02d:%02d:%02d` time rendering (srf05web.c lines 264-266, 319-321). -/
def timeString (lt : Tm) : String :=
  zpad 2 lt.tm_hour ++ ":" ++ zpad 2 lt.tm_min ++ ":" ++ zpad 2 lt.tm_sec

/-- Directory for the CSV history files (srf05web.c line 44). -/
def HISTORY_FILE_PATH : String := "/opt/app/html/history"

/-- The day-partition file name `%s/%04d-%02d-%02d.csv` (srf05web.c
lines 248-251). -/
def dumpFileName (lt : Tm) : String :=
  HISTORY_FILE_PATH ++ "/" ++ dateString lt ++ ".csv"

/-- The status label ternary `stat == 0 ? "ERROR" : "OPERATIONAL"` that both
the CSV writer (srf05web.c line 267) and the history JSON renderer
(srf05web.c line 324) apply to a stored entry. -/
def statLabel (stat : Nat) : String :=
  if stat = 0 then "ERROR" else "OPERATIONAL"

/-- One CSV record line (srf05web.c lines 260-269); the terminating newline
is modelled by storing files as lists of lines. -/
def csvLine (lt : Tm) (e : HistoryEntry) : String :=
  "\"" ++ dateString lt ++ "\",\"" ++ timeString lt ++ "\",\"" ++ statLabel e.stat ++
    "\"," ++ intToDecimal e.dcm ++ "," ++ intToDecimal e.draw

/-- A file system: each file name maps to its list of lines. -/
def FS : Type := String → List String

/-- The function `dump_history` (srf05web.c lines 238-272): read the entry
at `history.curr`, derive the partition file name from its local calendar
date, open the file in append-or-create mode and append one CSV line.
`localtime` is the libc date decomposition, passed as a parameter; `openOk`
says whether the `fopen` succeeds.  When `fopen` fails the C code prints an
error message but then still passes the NULL stream to `fprintf` and
`fclose` (lines 256-271), which is undefined behavior; that path is
modelled as `none` (the call does not complete normally). -/
def dump_history (localtime : Int → Tm) (openOk : Bool) (fs : FS) (h : HistoryTable) :
    Option FS :=
  let e := h.entries h.curr.toNat
  let lt := localtime e.ts
  if openOk then
    some (fun f => if f = dumpFileName lt then fs f ++ [csvLine lt e] else fs f)
  else none

/-- One history JSON object `%s{"date" : ..., "status" : "%s"}` as rendered
by the handler loop (srf05web.c lines 313-324): a ", " separator before
every entry except the first. -/
def histLine (first : Bool) (lt : Tm) (e : HistoryEntry) : String :=
  (if first then "" else ", ") ++
  "\x7b\"date\" : \"" ++ dateString lt ++ "\", \"time\" : \"" ++ timeString lt ++
  "\", \"distance_raw\" : " ++ intToDecimal e.draw ++ ", \"distance_cm\" : " ++
  intToDecimal e.dcm ++ ", \"status\" : \"" ++ statLabel e.stat ++ "\"\x7d"

/-- The history handler loop (srf05web.c lines 309-333) as a string
builder: walk `count` entries backward from `curr` with wraparound,
concatenating one rendered object per entry. -/
def historyJsonAux (localtime : Int → Tm) (h : HistoryTable) : Nat → Int → Bool → String
  | 0, _, _ => ""
  | n + 1, pos, first =>
    histLine first (localtime (h.entries pos.toNat).ts) (h.entries pos.toNat) ++
      historyJsonAux localtime h n (if pos - 1 < 0 then (h.size : Int) - 1 else pos - 1) false

/-- The full `/sensor/srf05/history` response body (srf05web.c lines
307-335). -/
def historyContent (localtime : Int → Tm) (h : HistoryTable) : String :=
  "\x7b \"history\" : [ " ++ historyJsonAux localtime h h.count h.curr true ++ "] \x7d"

/-- The `/sensor/srf05` response body (srf05web.c lines 299-303). -/
def latestContent (b : Bridge) : String :=
  "\x7b\"distance_raw\" : " ++ intToDecimal (srf05_read_distance b "raw") ++
  ", \"distance_cm\" : " ++ intToDecimal (srf05_read_distance b "cm") ++
  ", \"status\" : \"" ++ srf05_read_status b ++ "\"\x7d"

/-- C4: Whenever the two distance files are readable, the centimeter value
equals the raw tick value divided (integer division) by the configured
divisor — as published by the kernel's `distance_cm` sysfs show function —
both for the values the latest-value query reads and for the history entry
captured by `add_history`. -/
theorem distance_cm_consistency (b : Bridge) (now : Int) (h : HistoryTable)
    (hraw : b.rawOk = true) (hcm : b.cmOk = true) :
    srf05_read_distance b "cm" = srf05_read_distance b "raw" / (b.kernel.cmdiv : Int) ∧
    ((add_history b now h).entries (add_history b now h).curr.toNat).dcm =
      ((add_history b now h).entries (add_history b now h).curr.toNat).draw /
        (b.kernel.cmdiv : Int) := by
  have h1 := srf05_read_distance_raw_ok b hraw
  have h2 := srf05_read_distance_cm_ok b hcm
  have hdiv : ((b.kernel.distance / b.kernel.cmdiv : Nat) : Int) =
      (b.kernel.distance : Int) / (b.kernel.cmdiv : Int) := Int.ofNat_tdiv _ _
  have hmain : srf05_read_distance b "cm" =
      srf05_read_distance b "raw" / (b.kernel.cmdiv : Int) := by
    rw [h1, h2, hdiv]
  refine ⟨hmain, ?_⟩
  have he : (add_history b now h).entries (add_history b now h).curr.toNat = mkEntry b now := by
    unfold add_history
    exact addEntry_entries_at_curr _ _
  rw [he]
  exact hmain

/-- Witness for C4: a readable bridge with distance 4500 and divisor 450
gives cm = 10 = 4500 / 450, in the query values and in the stored entry. -/
theorem distance_cm_consistency_witness :
    (Bridge.mk (KernelState.mk 4500 0 450) true true true).rawOk = true ∧
    (Bridge.mk (KernelState.mk 4500 0 450) true true true).cmOk = true ∧
    (srf05_read_distance (Bridge.mk (KernelState.mk 4500 0 450) true true true) "cm" =
        srf05_read_distance (Bridge.mk (KernelState.mk 4500 0 450) true true true) "raw" /
          ((Bridge.mk (KernelState.mk 4500 0 450) true true true).kernel.cmdiv : Int) ∧
      ((add_history (Bridge.mk (KernelState.mk 4500 0 450) true true true) 0
            (initHistory MAX_HISTORY)).entries
          (add_history (Bridge.mk (KernelState.mk 4500 0 450) true true true) 0
            (initHistory MAX_HISTORY)).curr.toNat).dcm =
        ((add_history (Bridge.mk (KernelState.mk 4500 0 450) true true true) 0
              (initHistory MAX_HISTORY)).entries
            (add_history (Bridge.mk (KernelState.mk 4500 0 450) true true true) 0
              (initHistory MAX_HISTORY)).curr.toNat).draw /
          ((Bridge.mk (KernelState.mk 4500 0 450) true true true).kernel.cmdiv : Int)) ∧
    srf05_read_distance (Bridge.mk (KernelState.mk 4500 0 450) true true true) "cm" = 10 :=
  ⟨rfl, rfl,
    distance_cm_consistency (Bridge.mk (KernelState.mk 4500 0 450) true true true) 0
      (initHistory MAX_HISTORY) rfl rfl,
    by decide⟩

/-- C5: When none of the bridge files can be opened, the latest-value query
reads raw = -1 and cm = -1, the status reads "UNKNOWN", and the response
body is still the well-formed JSON document built from those sentinels (the
readers and the renderer are total — no fatal error path exists). -/
theorem latest_unreadable_spec (b : Bridge)
    (h1 : b.rawOk = false) (h2 : b.cmOk = false) (h3 : b.statusOk = false) :
    srf05_read_distance b "raw" = -1 ∧
    srf05_read_distance b "cm" = -1 ∧
    srf05_read_status b = "UNKNOWN" ∧
    latestContent b =
      "\x7b\"distance_raw\" : -1, \"distance_cm\" : -1, \"status\" : \"UNKNOWN\"\x7d" := by
  have hr : srf05_read_distance b "raw" = -1 := by
    unfold srf05_read_distance
    rw [if_neg (by decide : ¬ ("raw" : String) = "cm"),
      if_pos (rfl : ("raw" : String) = "raw"), if_neg (by rw [h1]; decide)]
  have hc : srf05_read_distance b "cm" = -1 := by
    unfold srf05_read_distance
    rw [if_pos (rfl : ("cm" : String) = "cm"), if_neg (by rw [h2]; decide)]
  have hs : srf05_read_status b = "UNKNOWN" := by
    unfold srf05_read_status
    rw [if_neg (by rw [h3]; decide)]
  refine ⟨hr, hc, hs, ?_⟩
  unfold latestContent
  rw [hr, hc, hs]
  decide

/-- Witness for C5 at a fully unreadable bridge. -/
theorem latest_unreadable_spec_witness :
    (Bridge.mk (KernelState.mk 0 0 450) false false false).rawOk = false ∧
    (Bridge.mk (KernelState.mk 0 0 450) false false false).cmOk = false ∧
    (Bridge.mk (KernelState.mk 0 0 450) false false false).statusOk = false ∧
    (srf05_read_distance (Bridge.mk (KernelState.mk 0 0 450) false false false) "raw" = -1 ∧
      srf05_read_distance (Bridge.mk (KernelState.mk 0 0 450) false false false) "cm" = -1 ∧
      srf05_read_status (Bridge.mk (KernelState.mk 0 0 450) false false false) = "UNKNOWN" ∧
      latestContent (Bridge.mk (KernelState.mk 0 0 450) false false false) =
        "\x7b\"distance_raw\" : -1, \"distance_cm\" : -1, \"status\" : \"UNKNOWN\"\x7d") :=
  ⟨rfl, rfl, rfl,
    latest_unreadable_spec (Bridge.mk (KernelState.mk 0 0 450) false false false) rfl rfl rfl⟩

/-- C9: For the buffer write `status[strlen(status) - 1] = 0` in
`srf05_read_status`, under the fgets guarantee `strlen < len`, the written
index is in bounds exactly when the read line is non-empty; for an empty
line the `size_t` subtraction wraps to 2 ^ 64 - 1, far out of bounds. -/
theorem status_write_index_bounds (s : String) (len : Nat)
    (hfgets : s.length < len) (hlen : len ≤ 2 ^ 63) :
    (s ≠ "" → statusWriteIndex s < len) ∧ (s = "" → len ≤ statusWriteIndex s) := by
  constructor
  · intro hne
    have hdata : s.data ≠ [] := by
      intro hnil
      apply hne
      cases s with
      | mk d =>
        rw [show d = [] from hnil]
    have hpos : 0 < s.length := by
      have hl : s.length = s.data.length := rfl
      rw [hl]
      cases hd : s.data with
      | nil => exact absurd hd hdata
      | cons c cs => simp
    unfold statusWriteIndex
    omega
  · intro he
    subst he
    unfold statusWriteIndex
    have h0 : ("" : String).length = 0 := rfl
    rw [h0]
    omega

/-- Witness for C9 at the line actually produced by the kernel's status
file, read into the 32-byte buffer of srf05web.c. -/
theorem status_write_index_bounds_witness :
    ("OPERATIONAL\n" : String).length < 32 ∧ (32 : Nat) ≤ 2 ^ 63 ∧
    statusWriteIndex "OPERATIONAL\n" = 11 ∧
    (("OPERATIONAL\n" : String) ≠ "" → statusWriteIndex "OPERATIONAL\n" < 32) ∧
    (("OPERATIONAL\n" : String) = "" → (32 : Nat) ≤ statusWriteIndex "OPERATIONAL\n") :=
  ⟨by decide, by norm_num,
    by decide,
    (status_write_index_bounds "OPERATIONAL\n" 32 (by decide) (by norm_num)).1,
    (status_write_index_bounds "OPERATIONAL\n" 32 (by decide) (by norm_num)).2⟩

/-- C10: Any status string other than exactly "OPERATIONAL" — including the
"UNKNOWN" sentinel from an unreadable status file — is stored by
`add_history` as the error state 0, and the label both renderers (CSV line
and history JSON) derive from that stored state is "ERROR". -/
theorem non_operational_rendered_error (b : Bridge) (now : Int) (h : HistoryTable)
    (hs : srf05_read_status b ≠ "OPERATIONAL") :
    ((add_history b now h).entries (add_history b now h).curr.toNat).stat = 0 ∧
    statLabel ((add_history b now h).entries (add_history b now h).curr.toNat).stat =
      "ERROR" := by
  have he : (add_history b now h).entries (add_history b now h).curr.toNat = mkEntry b now := by
    unfold add_history
    exact addEntry_entries_at_curr _ _
  rw [he]
  have h0 : (mkEntry b now).stat = 0 := by
    simp only [mkEntry]
    rw [if_neg hs]
  exact ⟨h0, by rw [h0]; rfl⟩

/-- Witness for C10 at an unreadable status file, whose read yields the
"UNKNOWN" sentinel. -/
theorem non_operational_rendered_error_witness :
    srf05_read_status (Bridge.mk (KernelState.mk 0 0 450) true true false) ≠ "OPERATIONAL" ∧
    srf05_read_status (Bridge.mk (KernelState.mk 0 0 450) true true false) = "UNKNOWN" ∧
    (((add_history (Bridge.mk (KernelState.mk 0 0 450) true true false) 0
          (initHistory MAX_HISTORY)).entries
        (add_history (Bridge.mk (KernelState.mk 0 0 450) true true false) 0
          (initHistory MAX_HISTORY)).curr.toNat).stat = 0 ∧
      statLabel ((add_history (Bridge.mk (KernelState.mk 0 0 450) true true false) 0
            (initHistory MAX_HISTORY)).entries
          (add_history (Bridge.mk (KernelState.mk 0 0 450) true true false) 0
            (initHistory MAX_HISTORY)).curr.toNat).stat = "ERROR") :=
  ⟨by decide, by decide,
    non_operational_rendered_error (Bridge.mk (KernelState.mk 0 0 450) true true false) 0
      (initHistory MAX_HISTORY) (by decide)⟩

/-- C8: A history query on an empty store (count = 0) yields the empty
snapshot sequence and the well-formed empty-array JSON document, not an
error. -/
theorem history_empty_render (localtime : Int → Tm) (h : HistoryTable)
    (h0 : h.count = 0) :
    snapshot_newest_first h = [] ∧
    historyContent localtime h = "\x7b \"history\" : [ ] \x7d" := by
  constructor
  · unfold snapshot_newest_first
    rw [h0]
    rfl
  · unfold historyContent
    rw [h0]
    rfl

/-- Witness for C8 at the freshly initialized history table. -/
theorem history_empty_render_witness :
    (initHistory MAX_HISTORY).count = 0 ∧
    (snapshot_newest_first (initHistory MAX_HISTORY) = [] ∧
      historyContent (fun _ => Tm.mk 70 0 1 0 0 0) (initHistory MAX_HISTORY) =
        "\x7b \"history\" : [ ] \x7d") :=
  ⟨rfl, history_empty_render (fun _ => Tm.mk 70 0 1 0 0 0) (initHistory MAX_HISTORY) rfl⟩

/-- C3: When the day's partition file cannot be opened, the C code does
report the error, but it then passes the NULL stream to `fprintf` and
`fclose` (srf05web.c lines 254-271; the error branch has no early return),
which is undefined behavior — the persist call does not return normally, so
the scheduler loop cannot be relied on to continue.  The model evaluates
this failing path to `none`. -/
theorem dump_history_open_failure (localtime : Int → Tm) (fs : FS) (h : HistoryTable) :
    dump_history localtime false fs h = none := rfl

/-- C7: With the file open succeeding, each persist call appends exactly one
CSV line — date, time, status label, cm value, raw value — to the file named
after the reading's local calendar date, leaving every other file and all
existing lines untouched; two successive persists whose readings fall on
the same calendar date append two lines to that same file, in order. -/
theorem dump_history_same_day_appends (localtime : Int → Tm) (fs : FS)
    (h1 h2 : HistoryTable)
    (hdate : dumpFileName (localtime ((h2.entries h2.curr.toNat).ts)) =
      dumpFileName (localtime ((h1.entries h1.curr.toNat).ts))) :
    ∃ fs2 fs3,
      dump_history localtime true fs h1 = some fs2 ∧
      dump_history localtime true fs2 h2 = some fs3 ∧
      fs2 (dumpFileName (localtime ((h1.entries h1.curr.toNat).ts))) =
        fs (dumpFileName (localtime ((h1.entries h1.curr.toNat).ts))) ++
          [csvLine (localtime ((h1.entries h1.curr.toNat).ts)) (h1.entries h1.curr.toNat)] ∧
      fs3 (dumpFileName (localtime ((h1.entries h1.curr.toNat).ts))) =
        fs (dumpFileName (localtime ((h1.entries h1.curr.toNat).ts))) ++
          [csvLine (localtime ((h1.entries h1.curr.toNat).ts)) (h1.entries h1.curr.toNat),
            csvLine (localtime ((h2.entries h2.curr.toNat).ts)) (h2.entries h2.curr.toNat)] ∧
      ∀ f, f ≠ dumpFileName (localtime ((h1.entries h1.curr.toNat).ts)) → fs3 f = fs f := by
  refine ⟨_, _, rfl, rfl, ?_, ?_, ?_⟩
  · rw [if_pos rfl]
  · simp [hdate]
  · intro f hf
    have hf2 : f ≠ dumpFileName (localtime ((h2.entries h2.curr.toNat).ts)) := by
      rw [hdate]
      exact hf
    simp only [if_neg hf2, if_neg hf]

/-- Witness for C7: two persists of the same one-entry history into the
empty file system. -/
theorem dump_history_same_day_appends_witness :
    dumpFileName ((fun _ => Tm.mk 70 0 1 0 0 0)
        (((addEntry (sampleEntry 5) (initHistory MAX_HISTORY)).entries
          (addEntry (sampleEntry 5) (initHistory MAX_HISTORY)).curr.toNat).ts)) =
      dumpFileName ((fun _ => Tm.mk 70 0 1 0 0 0)
        (((addEntry (sampleEntry 5) (initHistory MAX_HISTORY)).entries
          (addEntry (sampleEntry 5) (initHistory MAX_HISTORY)).curr.toNat).ts)) ∧
    (∃ fs2 fs3,
      dump_history (fun _ => Tm.mk 70 0 1 0 0 0) true (fun _ => [])
          (addEntry (sampleEntry 5) (initHistory MAX_HISTORY)) = some fs2 ∧
      dump_history (fun _ => Tm.mk 70 0 1 0 0 0) true fs2
          (addEntry (sampleEntry 5) (initHistory MAX_HISTORY)) = some fs3 ∧
      fs2 (dumpFileName ((fun _ => Tm.mk 70 0 1 0 0 0)
          (((addEntry (sampleEntry 5) (initHistory MAX_HISTORY)).entries
            (addEntry (sampleEntry 5) (initHistory MAX_HISTORY)).curr.toNat).ts))) =
        (fun _ => ([] : List String)) (dumpFileName ((fun _ => Tm.mk 70 0 1 0 0 0)
          (((addEntry (sampleEntry 5) (initHistory MAX_HISTORY)).entries
            (addEntry (sampleEntry 5) (initHistory MAX_HISTORY)).curr.toNat).ts))) ++
          [csvLine ((fun _ => Tm.mk 70 0 1 0 0 0)
              (((addEntry (sampleEntry 5) (initHistory MAX_HISTORY)).entries
                (addEntry (sampleEntry 5) (initHistory MAX_HISTORY)).curr.toNat).ts))
            ((addEntry (sampleEntry 5) (initHistory MAX_HISTORY)).entries
              (addEntry (sampleEntry 5) (initHistory MAX_HISTORY)).curr.toNat)] ∧
      fs3 (dumpFileName ((fun _ => Tm.mk 70 0 1 0 0 0)
          (((addEntry (sampleEntry 5) (initHistory MAX_HISTORY)).entries
            (addEntry (sampleEntry 5) (initHistory MAX_HISTORY)).curr.toNat).ts))) =
        (fun _ => ([] : List String)) (dumpFileName ((fun _ => Tm.mk 70 0 1 0 0 0)
          (((addEntry (sampleEntry 5) (initHistory MAX_HISTORY)).entries
            (addEntry (sampleEntry 5) (initHistory MAX_HISTORY)).curr.toNat).ts))) ++
          [csvLine ((fun _ => Tm.mk 70 0 1 0 0 0)
              (((addEntry (sampleEntry 5) (initHistory MAX_HISTORY)).entries
                (addEntry (sampleEntry 5) (initHistory MAX_HISTORY)).curr.toNat).ts))
            ((addEntry (sampleEntry 5) (initHistory MAX_HISTORY)).entries
              (addEntry (sampleEntry 5) (initHistory MAX_HISTORY)).curr.toNat),
            csvLine ((fun _ => Tm.mk 70 0 1 0 0 0)
              (((addEntry (sampleEntry 5) (initHistory MAX_HISTORY)).entries
                (addEntry (sampleEntry 5) (initHistory MAX_HISTORY)).curr.toNat).ts))
            ((addEntry (sampleEntry 5) (initHistory MAX_HISTORY)).entries
              (addEntry (sampleEntry 5) (initHistory MAX_HISTORY)).curr.toNat)] ∧
      ∀ f, f ≠ dumpFileName ((fun _ => Tm.mk 70 0 1 0 0 0)
          (((addEntry (sampleEntry 5) (initHistory MAX_HISTORY)).entries
            (addEntry (sampleEntry 5) (initHistory MAX_HISTORY)).curr.toNat).ts)) →
        fs3 f = (fun _ => ([] : List String)) f) :=
  ⟨rfl,
    dump_history_same_day_appends (fun _ => Tm.mk 70 0 1 0 0 0) (fun _ => [])
      (addEntry (sampleEntry 5) (initHistory MAX_HISTORY))
      (addEntry (sampleEntry 5) (initHistory MAX_HISTORY)) rfl⟩
